import Mathlib

/-
Verification of the `tortuosity` function of `porespy/dns/__funcs__.py`.

The function is a pure pipeline around two external collaborators: the
percolation filter `trim_nonpercolating_paths` and the openpnm network /
Fickian-diffusion solver.  The pipeline itself (axis validation, porosity
bookkeeping, boundary masks, flux-to-tortuosity algebra, concentration
reconstruction) is embedded below over exact rationals; the two external
collaborators enter as function parameters (`trimF`, `solveF`), and the
parts of their behaviour that the pipeline observes (pore coordinates,
template indices, boundary fluxes, steady state) are modelled from the
specification where noted.
-/

namespace PoreSpy

/-- A Python exception, carrying its message. -/
structure PyErr where
  msg : String
deriving DecidableEq, Repr

/-- A numpy boolean array: its shape together with the row-major (C-order)
flattened data. -/
structure Image where
  shape : List Nat
  data : List Bool
deriving DecidableEq, Repr

/-- `im.ndim`: number of axes. -/
def Image.ndim (im : Image) : Nat := im.shape.length

/-- `im.size`: total number of voxels, the product of the shape. -/
def Image.size (im : Image) : Nat := im.shape.prod

/-- `im.sum()` for a boolean array: the number of `True` voxels. -/
def Image.sum (im : Image) : Nat := im.data.count true

/-- Python sequence indexing, with negative indices counting from the end
(`l[-1]` is the last element). -/
def pyGet (l : List Nat) (i : Int) : Nat :=
  if i < 0 then l.getD (l.length - i.natAbs) 0 else l.getD i.toNat 0

/-- `np.unravel_index` in C order: the multi-index of flat position `i`
for the given shape. -/
def unravel : List Nat → Nat → List Nat
  | [], _ => []
  | _ :: ds, i => i / ds.prod :: unravel ds (i % ds.prod)

/-- Modelled from the spec: the openpnm `CubicTemplate` network built on the
void phase keeps, in C order, one pore per `True` voxel;
`pore.template_indices` are the flat indices of those voxels. -/
def templateIndices (im : Image) : List Nat :=
  (List.range im.data.length).filter (fun i => im.data.getD i false)

/-- Modelled from the spec: the integer voxel coordinates of the pores of the
network built on the void phase, in C order. -/
def poreCoords (im : Image) : List (List Nat) :=
  (templateIndices im).map (unravel im.shape)

/-- Modelled from the spec: `net['pore.coords'][:, axis]` with unit spacing;
openpnm places pores at voxel centers, so the coordinate along an axis is the
voxel index plus one half. -/
def poreCoordQ (cs : List Nat) (axis : Int) : ℚ :=
  (pyGet cs axis : ℚ) + 1/2

/-- The inlet mask `net['pore.coords'][:, axis] <= 1`, one Boolean per pore. -/
def inletMask (im : Image) (axis : Int) : List Bool :=
  (poreCoords im).map (fun cs => decide (poreCoordQ cs axis ≤ 1))

/-- The outlet mask `net['pore.coords'][:, axis] >= im.shape[axis]-1`. -/
def outletMask (im : Image) (axis : Int) : List Bool :=
  (poreCoords im).map (fun cs =>
    decide (((pyGet im.shape axis : Int) : ℚ) - 1 ≤ poreCoordQ cs axis))

/-- The distance `|a - b|` on naturals. -/
def natDist (a b : Nat) : Nat := (a - b) + (b - a)

/-- Manhattan distance between two voxel coordinates. -/
def coordDist (cs ct : List Nat) : Nat :=
  ((cs.zip ct).map (fun p => natDist p.1 p.2)).sum

/-- Modelled from the spec: two pores of the cubic network are connected by a
throat exactly when their voxels are face neighbours. -/
def adjacent (cs ct : List Nat) : Bool := coordDist cs ct == 1

/-- Modelled from the spec: `fd.rate(pores=mask)[0]`, the net molar flow into
the masked pore set, with every throat conductance equal to `1`.  Throats
internal to the set contribute twice with opposite signs and cancel. -/
def rate (coords : List (List Nat)) (conc : List ℚ) (mask : List Bool) : ℚ :=
  ((List.range coords.length).map (fun p =>
    if mask.getD p false then
      ((List.range coords.length).map (fun q =>
        if adjacent (coords.getD p []) (coords.getD q []) then
          conc.getD p 0 - conc.getD q 0
        else 0)).sum
    else 0)).sum

/-- `np.allclose` on scalars with numpy's default tolerances
`rtol = 1e-05`, `atol = 1e-08`. -/
def allclose (a b : ℚ) : Bool :=
  decide (|a - b| ≤ 1/100000000 + 1/100000 * |b|)

/-- Whether the assoc list of settings has the given key,
`key in kwargs.keys()`. -/
def hasKey (kvs : List (String × String)) (k : String) : Bool :=
  kvs.any (fun kv => kv.1 == k)

/-- `settings[k] = v`: overwrite the key where present, append otherwise. -/
def setKey (kvs : List (String × String)) (k v : String) :
    List (String × String) :=
  if hasKey kvs k then kvs.map (fun kv => if kv.1 == k then (k, v) else kv)
  else kvs ++ [(k, v)]

/-- `settings.update(kwargs)`. -/
def updateKeys (base kwargs : List (String × String)) :
    List (String × String) :=
  kwargs.foldl (fun acc kv => setKey acc kv.1 kv.2) base

/-- Lookup of a settings key. -/
def lookupKey (kvs : List (String × String)) (k : String) : Option String :=
  (kvs.find? (fun kv => kv.1 == k)).map Prod.snd

/-- The solver-settings selection of `tortuosity`: if `'solver_family'` is
among the keyword arguments they all get applied, otherwise the defaults
`scipy`/`cg` are installed, downgraded to `pyamg` when
`importlib.util.find_spec("pyamg")` is `None`. -/
def solverSettings (base kwargs : List (String × String))
    (pyamgFound : Bool) : List (String × String) :=
  if hasKey kwargs "solver_family" then updateKeys base kwargs
  else if pyamgFound then
    setKey (setKey base "solver_family" "scipy") "solver_type" "cg"
  else
    setKey (setKey (setKey base "solver_family" "scipy") "solver_type" "cg")
      "solver_family" "pyamg"

/-- The inlet boundary concentration `C_in = 1.0`. -/
def C_in : ℚ := 1

/-- The outlet boundary concentration `C_out = 0.0`. -/
def C_out : ℚ := 0

/-- `rate_in = fd.rate(pores=inlets)[0]`. -/
def rate_in (im2 : Image) (axis : Int) (conc : List ℚ) : ℚ :=
  rate (poreCoords im2) conc (inletMask im2 axis)

/-- `rate_out = fd.rate(pores=outlets)[0]`. -/
def rate_out (im2 : Image) (axis : Int) (conc : List ℚ) : ℚ :=
  rate (poreCoords im2) conc (outletMask im2 axis)

/-- `L = im.shape[axis]` (after trimming, as in the source). -/
def lenL (im2 : Image) (axis : Int) : ℚ := (pyGet im2.shape axis : ℚ)

/-- `A = np.prod(im.shape) / L`. -/
def areaA (im2 : Image) (axis : Int) : ℚ := (im2.size : ℚ) / lenL im2 axis

/-- `N_A = A / L * delta_C` with `delta_C = C_in - C_out`. -/
def molarNA (im2 : Image) (axis : Int) : ℚ :=
  areaA im2 axis / lenL im2 axis * (C_in - C_out)

/-- `Deff = rate_in / N_A`. -/
def Deff (im2 : Image) (axis : Int) (conc : List ℚ) : ℚ :=
  rate_in im2 axis conc / molarNA im2 axis

/-- `eps = im.sum() / im.size`: porosity of an image. -/
def epsOf (im : Image) : ℚ := (im.sum : ℚ) / (im.size : ℚ)

/-- `conc[net['pore.template_indices']] = fd['pore.concentration']` applied to
`np.zeros([im.size])`: numpy fancy assignment into a zero array. -/
def scatterAssign (n : Nat) (idxs : List Nat) (vals : List ℚ) : List ℚ :=
  (idxs.zip vals).foldl (fun acc iv => acc.set iv.1 iv.2)
    (List.replicate n 0)

/-- The named tuple returned by `tortuosity`; the reconstructed concentration
array is a shape together with flattened data. -/
structure TortuosityResult where
  tortuosity : ℚ
  effective_porosity : ℚ
  original_porosity : ℚ
  formation_factor : ℚ
  image : Option (List Nat × List ℚ)
deriving DecidableEq, Repr

instance exceptDecEq {e a : Type} [DecidableEq e] [DecidableEq a] :
    DecidableEq (Except e a) := fun x y =>
  match x, y with
  | .error u, .error v =>
    if h : u = v then .isTrue (congrArg Except.error h)
    else .isFalse (fun hc => h (Except.error.inj hc))
  | .ok u, .ok v =>
    if h : u = v then .isTrue (congrArg Except.ok h)
    else .isFalse (fun hc => h (Except.ok.inj hc))
  | .error _, .ok _ => .isFalse (fun hc => Except.noConfusion hc)
  | .ok _, .error _ => .isFalse (fun hc => Except.noConfusion hc)

/-- Message of the axis-validation exception. -/
def axisErrMsg : String := "Axis argument is too high"

/-- Message of the flow-mismatch exception. -/
def rateErrMsg : String :=
  "Something went wrong, inlet and outlet rate do not match"

/-- Assembling the named tuple from the trimmed image, the solved
concentration and the original porosity. -/
def buildResult (eps0 : ℚ) (im2 : Image) (axis : Int) (conc : List ℚ)
    (return_im : Bool) : TortuosityResult :=
  { tortuosity := epsOf im2 / Deff im2 axis conc
    effective_porosity := epsOf im2
    original_porosity := eps0
    formation_factor := 1 / Deff im2 axis conc
    image :=
      if return_im then
        some (im2.shape, scatterAssign im2.size (templateIndices im2) conc)
      else none }

/-- The body of `tortuosity` after the axis check: trim (external), build the
boundary masks, run the solver (external) with the selected settings, check
the flow balance, and assemble the result. -/
def tortuosityAfterAxis
    (trimF : Image → Int → Except PyErr Image)
    (solveF : Image → List Bool → List Bool → List (String × String) →
      Except PyErr (List ℚ))
    (pyamgFound : Bool) (base : List (String × String))
    (im : Image) (axis : Int) (return_im : Bool)
    (kwargs : List (String × String)) : Except PyErr TortuosityResult :=
  match trimF im axis with
  | .error e => .error e
  | .ok im2 =>
    match solveF im2 (inletMask im2 axis) (outletMask im2 axis)
        (solverSettings base kwargs pyamgFound) with
    | .error e => .error e
    | .ok conc =>
      if allclose (-(rate_out im2 axis conc)) (rate_in im2 axis conc) then
        .ok (buildResult (epsOf im) im2 axis conc return_im)
      else .error ⟨rateErrMsg⟩

/-- The `tortuosity` function of `porespy/dns/__funcs__.py`, with the two
external collaborators (`trim_nonpercolating_paths` and the openpnm solver
run) passed as parameters. -/
def tortuosity
    (trimF : Image → Int → Except PyErr Image)
    (solveF : Image → List Bool → List Bool → List (String × String) →
      Except PyErr (List ℚ))
    (pyamgFound : Bool) (base : List (String × String))
    (im : Image) (axis : Int) (return_im : Bool)
    (kwargs : List (String × String)) : Except PyErr TortuosityResult :=
  if axis > (im.ndim : Int) - 1 then .error ⟨axisErrMsg⟩
  else tortuosityAfterAxis trimF solveF pyamgFound base im axis return_im
    kwargs

/-- Modelled from the spec: the solver "solves for steady-state
concentration".  A concentration vector is a steady state when it obeys the
fixed-value boundary conditions and, at every interior pore, the net flux
through the unit-conductance throats vanishes. -/
def isSteadyState (im : Image) (axis : Int) (conc : List ℚ) : Bool :=
  conc.length == (poreCoords im).length &&
  (List.range (poreCoords im).length).all (fun p =>
    if (outletMask im axis).getD p false then conc.getD p 0 == C_out
    else if (inletMask im axis).getD p false then conc.getD p 0 == C_in
    else
      decide ((((List.range (poreCoords im).length).map (fun q =>
        if adjacent ((poreCoords im).getD p []) ((poreCoords im).getD q [])
        then conc.getD p 0 - conc.getD q 0
        else 0)).sum) = 0))

/-- The identity trim: `trim_nonpercolating_paths` on an image with no
non-percolating voxels returns it unchanged. -/
def idTrim : Image → Int → Except PyErr Image := fun im _ => .ok im

/-- A trim that raises, for exercising exception propagation. -/
def failTrim : Image → Int → Except PyErr Image :=
  fun _ _ => .error ⟨"trim failed"⟩

/-- A solver run returning a fixed concentration vector. -/
def constSolve (c : List ℚ) :
    Image → List Bool → List Bool → List (String × String) →
      Except PyErr (List ℚ) :=
  fun _ _ _ _ => .ok c

/-- A solver run that raises, for exercising exception propagation. -/
def failSolve :
    Image → List Bool → List Bool → List (String × String) →
      Except PyErr (List ℚ) :=
  fun _ _ _ _ => .error ⟨"solver failed"⟩

/-- A fully-open two-dimensional slab: shape `[L, W]`, every voxel `True`. -/
def slab2 (L W : Nat) : Image := ⟨[L, W], List.replicate (L * W) true⟩

/-- The exact steady concentration on an open slab depends only on the layer
index: row `k` of `L` rows holds `1 - k / (L - 1)`. -/
def cRow (L k : Nat) : ℚ := 1 - (k : ℚ) / ((L : ℚ) - 1)

/-- The linear concentration profile on the slab `[L, W]` along axis `0`. -/
def linConc (L W : Nat) : List ℚ :=
  (List.range (L * W)).map (fun p => cRow L (p / W))

/-- A concentration vector on the `3 x 1` slab violating flow balance. -/
def badConc : List ℚ := [1, 0, 0]

/-- Every successful run reaches the flow-balance check and returns exactly
the assembled named tuple. -/
theorem tortuosity_ok_elim
    (tf : Image → Int → Except PyErr Image)
    (sf : Image → List Bool → List Bool → List (String × String) →
      Except PyErr (List ℚ))
    (pf : Bool) (base : List (String × String)) (im : Image) (axis : Int)
    (rim : Bool) (kwargs : List (String × String)) (im2 : Image)
    (conc : List ℚ) (r : TortuosityResult)
    (htrim : tf im axis = .ok im2)
    (hsolve : sf im2 (inletMask im2 axis) (outletMask im2 axis)
      (solverSettings base kwargs pf) = .ok conc)
    (hok : tortuosity tf sf pf base im axis rim kwargs = .ok r) :
    r = buildResult (epsOf im) im2 axis conc rim ∧
    allclose (-(rate_out im2 axis conc)) (rate_in im2 axis conc) = true := by
  unfold tortuosity at hok
  by_cases hax : axis > (im.ndim : Int) - 1
  · rw [if_pos hax] at hok
    exact absurd hok (by simp)
  · rw [if_neg hax] at hok
    unfold tortuosityAfterAxis at hok
    rw [htrim] at hok
    dsimp only at hok
    rw [hsolve] at hok
    dsimp only at hok
    by_cases hc :
        allclose (-(rate_out im2 axis conc)) (rate_in im2 axis conc) = true
    · rw [if_pos hc] at hok
      refine ⟨?_, hc⟩
      injection hok with h
      exact h.symm
    · rw [if_neg hc] at hok
      exact absurd hok (by simp)

/-- The `allclose` test always accepts two equal scalars. -/
theorem allclose_self (a : ℚ) : allclose a a = true := by
  simp only [allclose, sub_self, abs_zero, decide_eq_true_eq]
  positivity

/-- A run whose trim and solve succeed and whose flows balance returns the
assembled named tuple. -/
theorem tortuosity_ok_intro
    (tf : Image → Int → Except PyErr Image)
    (sf : Image → List Bool → List Bool → List (String × String) →
      Except PyErr (List ℚ))
    (pf : Bool) (base : List (String × String)) (im : Image) (axis : Int)
    (rim : Bool) (kwargs : List (String × String)) (im2 : Image)
    (conc : List ℚ)
    (hax : ¬ axis > (im.ndim : Int) - 1)
    (htrim : tf im axis = .ok im2)
    (hsolve : sf im2 (inletMask im2 axis) (outletMask im2 axis)
      (solverSettings base kwargs pf) = .ok conc)
    (hc : allclose (-(rate_out im2 axis conc)) (rate_in im2 axis conc)
      = true) :
    tortuosity tf sf pf base im axis rim kwargs =
      .ok (buildResult (epsOf im) im2 axis conc rim) := by
  unfold tortuosity tortuosityAfterAxis
  rw [if_neg hax, htrim]
  dsimp only
  rw [hsolve]
  dsimp only
  rw [if_pos hc]

/-- Inlet molar flow of the exact linear profile on the open `3 x 1` slab. -/
theorem rate_in_slab31 : rate_in (slab2 3 1) 0 (linConc 3 1) = 1/2 := by
  simp [rate_in, rate, poreCoords, templateIndices, inletMask, outletMask,
    slab2, linConc, cRow, unravel, poreCoordQ, pyGet, adjacent, coordDist,
    natDist, List.range_succ]
  norm_num

/-- Outlet molar flow of the exact linear profile on the open `3 x 1`
slab. -/
theorem rate_out_slab31 : rate_out (slab2 3 1) 0 (linConc 3 1) = -(1/2) := by
  simp [rate_out, rate, poreCoords, templateIndices, inletMask, outletMask,
    slab2, linConc, cRow, unravel, poreCoordQ, pyGet, adjacent, coordDist,
    natDist, List.range_succ]
  norm_num

/-- The flows of the linear profile on the open `3 x 1` slab balance. -/
theorem balance_slab31 :
    allclose (-(rate_out (slab2 3 1) 0 (linConc 3 1)))
      (rate_in (slab2 3 1) 0 (linConc 3 1)) = true := by
  rw [rate_out_slab31, rate_in_slab31, neg_neg]
  exact allclose_self _

/-- The reference successful run: open `3 x 1` slab, identity trim, exact
linear steady-state concentration. -/
theorem run_slab31 :
    tortuosity idTrim (constSolve (linConc 3 1)) true [] (slab2 3 1) 0
      false [] =
    .ok (buildResult (epsOf (slab2 3 1)) (slab2 3 1) 0 (linConc 3 1)
      false) :=
  tortuosity_ok_intro idTrim (constSolve (linConc 3 1)) true [] (slab2 3 1)
    0 false [] (slab2 3 1) (linConc 3 1) (by decide) rfl rfl balance_slab31

/-- Claim C1: whenever `tortuosity` returns a result, the returned tortuosity
equals the effective porosity divided by the effective diffusivity, the
latter computed as `rate_in / N_A` with `N_A = (A / L) * (C_in - C_out)`,
`L = im.shape[axis]`, `A = prod(im.shape) / L`, `C_in = 1`, `C_out = 0`. -/
theorem C1_tortuosity_is_porosity_over_diffusivity
    (tf : Image → Int → Except PyErr Image)
    (sf : Image → List Bool → List Bool → List (String × String) →
      Except PyErr (List ℚ))
    (pf : Bool) (base : List (String × String)) (im : Image) (axis : Int)
    (rim : Bool) (kwargs : List (String × String)) (im2 : Image)
    (conc : List ℚ) (r : TortuosityResult)
    (htrim : tf im axis = .ok im2)
    (hsolve : sf im2 (inletMask im2 axis) (outletMask im2 axis)
      (solverSettings base kwargs pf) = .ok conc)
    (hok : tortuosity tf sf pf base im axis rim kwargs = .ok r) :
    r.tortuosity = r.effective_porosity /
      (rate_in im2 axis conc /
        ((im2.size : ℚ) / (pyGet im2.shape axis : ℚ) /
          (pyGet im2.shape axis : ℚ) * (C_in - C_out))) := by
  obtain ⟨hr, -⟩ := tortuosity_ok_elim tf sf pf base im axis rim kwargs
    im2 conc r htrim hsolve hok
  subst hr
  simp [buildResult, Deff, molarNA, areaA, lenL]

/-- Witness for C1: a complete concrete run on the open `3 x 1` slab. -/
theorem C1_tortuosity_is_porosity_over_diffusivity_witness :
    (buildResult (epsOf (slab2 3 1)) (slab2 3 1) 0 (linConc 3 1)
      false).tortuosity =
    (buildResult (epsOf (slab2 3 1)) (slab2 3 1) 0 (linConc 3 1)
      false).effective_porosity /
      (rate_in (slab2 3 1) 0 (linConc 3 1) /
        (((slab2 3 1).size : ℚ) / (pyGet (slab2 3 1).shape 0 : ℚ) /
          (pyGet (slab2 3 1).shape 0 : ℚ) * (C_in - C_out))) :=
  C1_tortuosity_is_porosity_over_diffusivity idTrim
    (constSolve (linConc 3 1)) true [] (slab2 3 1) 0 false []
    (slab2 3 1) (linConc 3 1) _ rfl rfl run_slab31

/-- Claim C3: the axis check fires exactly when `axis > im.ndim - 1`, before
the trim, the network construction and the solve (whose stand-ins `tf` and
`sf` are never consulted); otherwise the pipeline proceeds. -/
theorem C3_axis_validation
    (tf : Image → Int → Except PyErr Image)
    (sf : Image → List Bool → List Bool → List (String × String) →
      Except PyErr (List ℚ))
    (pf : Bool) (base : List (String × String)) (im : Image) (axis : Int)
    (rim : Bool) (kwargs : List (String × String)) :
    (axis > (im.ndim : Int) - 1 →
      tortuosity tf sf pf base im axis rim kwargs = .error ⟨axisErrMsg⟩) ∧
    (¬ axis > (im.ndim : Int) - 1 →
      tortuosity tf sf pf base im axis rim kwargs =
        tortuosityAfterAxis tf sf pf base im axis rim kwargs) := by
  unfold tortuosity
  constructor
  · intro h
    rw [if_pos h]
  · intro h
    rw [if_neg h]

/-- Witness for C3: a `2`-dimensional image with `axis = 5` raises. -/
theorem C3_axis_validation_witness :
    tortuosity idTrim (constSolve (linConc 3 1)) true [] (slab2 3 1) 5
      false [] = .error ⟨axisErrMsg⟩ :=
  (C3_axis_validation idTrim (constSolve (linConc 3 1)) true [] (slab2 3 1)
    5 false []).1 (by decide)

/-- Claim C4: when the trim returns the image unchanged (no voxel removed),
the returned effective porosity equals the returned original porosity, and
both are the count of `True` voxels over the voxel count. -/
theorem C4_trim_noop_porosity
    (tf : Image → Int → Except PyErr Image)
    (sf : Image → List Bool → List Bool → List (String × String) →
      Except PyErr (List ℚ))
    (pf : Bool) (base : List (String × String)) (im : Image) (axis : Int)
    (rim : Bool) (kwargs : List (String × String)) (r : TortuosityResult)
    (htrim : tf im axis = .ok im)
    (hok : tortuosity tf sf pf base im axis rim kwargs = .ok r) :
    r.effective_porosity = r.original_porosity ∧
    r.original_porosity = (im.sum : ℚ) / (im.size : ℚ) := by
  rcases hsf : sf im (inletMask im axis) (outletMask im axis)
      (solverSettings base kwargs pf) with e | conc
  · exfalso
    unfold tortuosity tortuosityAfterAxis at hok
    by_cases hax : axis > (im.ndim : Int) - 1
    · rw [if_pos hax] at hok
      simp at hok
    · rw [if_neg hax, htrim] at hok
      dsimp only at hok
      rw [hsf] at hok
      simp at hok
  · obtain ⟨hr, -⟩ := tortuosity_ok_elim tf sf pf base im axis rim kwargs
      im conc r htrim hsf hok
    subst hr
    exact ⟨rfl, rfl⟩

/-- Witness for C4: concrete run on the open `3 x 1` slab with the identity
trim. -/
theorem C4_trim_noop_porosity_witness :
    (buildResult (epsOf (slab2 3 1)) (slab2 3 1) 0 (linConc 3 1)
      false).effective_porosity =
    (buildResult (epsOf (slab2 3 1)) (slab2 3 1) 0 (linConc 3 1)
      false).original_porosity ∧
    (buildResult (epsOf (slab2 3 1)) (slab2 3 1) 0 (linConc 3 1)
      false).original_porosity =
      ((slab2 3 1).sum : ℚ) / ((slab2 3 1).size : ℚ) :=
  C4_trim_noop_porosity idTrim (constSolve (linConc 3 1)) true []
    (slab2 3 1) 0 false [] _ rfl run_slab31

/-- Claim C2: after a successful trim and solve, the run fails with the
flow-mismatch error exactly when `np.allclose(-rate_out, rate_in)` is
violated; when the two flows match, the run returns the assembled result. -/
theorem C2_flow_balance_check
    (tf : Image → Int → Except PyErr Image)
    (sf : Image → List Bool → List Bool → List (String × String) →
      Except PyErr (List ℚ))
    (pf : Bool) (base : List (String × String)) (im : Image) (axis : Int)
    (rim : Bool) (kwargs : List (String × String)) (im2 : Image)
    (conc : List ℚ)
    (hax : ¬ axis > (im.ndim : Int) - 1)
    (htrim : tf im axis = .ok im2)
    (hsolve : sf im2 (inletMask im2 axis) (outletMask im2 axis)
      (solverSettings base kwargs pf) = .ok conc) :
    (tortuosity tf sf pf base im axis rim kwargs = .error ⟨rateErrMsg⟩ ↔
      allclose (-(rate_out im2 axis conc)) (rate_in im2 axis conc)
        = false) ∧
    (allclose (-(rate_out im2 axis conc)) (rate_in im2 axis conc) = true →
      tortuosity tf sf pf base im axis rim kwargs =
        .ok (buildResult (epsOf im) im2 axis conc rim)) := by
  unfold tortuosity tortuosityAfterAxis
  rw [if_neg hax, htrim]
  dsimp only
  rw [hsolve]
  dsimp only
  by_cases hc :
      allclose (-(rate_out im2 axis conc)) (rate_in im2 axis conc) = true
  · rw [if_pos hc, hc]
    constructor
    · constructor
      · intro h
        exact absurd h (by simp)
      · intro h
        simp at h
    · intro _
      rfl
  · have hc' : allclose (-(rate_out im2 axis conc)) (rate_in im2 axis conc)
        = false := by
      simpa using hc
    rw [if_neg hc, hc']
    constructor
    · simp
    · intro h
      simp at h

/-- Witness for C2: an unbalanced concentration vector on the `3 x 1` slab
makes the run fail with the flow-mismatch error. -/
theorem C2_flow_balance_check_witness :
    (tortuosity idTrim (constSolve badConc) true [] (slab2 3 1) 0 false []
        = .error ⟨rateErrMsg⟩ ↔
      allclose (-(rate_out (slab2 3 1) 0 badConc))
        (rate_in (slab2 3 1) 0 badConc) = false) ∧
    (allclose (-(rate_out (slab2 3 1) 0 badConc))
        (rate_in (slab2 3 1) 0 badConc) = true →
      tortuosity idTrim (constSolve badConc) true [] (slab2 3 1) 0 false []
        = .ok (buildResult (epsOf (slab2 3 1)) (slab2 3 1) 0 badConc
          false)) :=
  C2_flow_balance_check idTrim (constSolve badConc) true [] (slab2 3 1) 0
    false [] (slab2 3 1) badConc (by decide) rfl rfl

/-- Claim C6: the returned formation factor is `1 / Deff`, the ratio of the
bulk diffusivity (taken as one) to the effective diffusivity, and it
satisfies `formation_factor * effective_porosity = tortuosity`. -/
theorem C6_formation_factor
    (tf : Image → Int → Except PyErr Image)
    (sf : Image → List Bool → List Bool → List (String × String) →
      Except PyErr (List ℚ))
    (pf : Bool) (base : List (String × String)) (im : Image) (axis : Int)
    (rim : Bool) (kwargs : List (String × String)) (im2 : Image)
    (conc : List ℚ) (r : TortuosityResult)
    (htrim : tf im axis = .ok im2)
    (hsolve : sf im2 (inletMask im2 axis) (outletMask im2 axis)
      (solverSettings base kwargs pf) = .ok conc)
    (hok : tortuosity tf sf pf base im axis rim kwargs = .ok r) :
    r.formation_factor = 1 /
      (rate_in im2 axis conc /
        ((im2.size : ℚ) / (pyGet im2.shape axis : ℚ) /
          (pyGet im2.shape axis : ℚ) * (C_in - C_out))) ∧
    r.formation_factor * r.effective_porosity = r.tortuosity := by
  obtain ⟨hr, -⟩ := tortuosity_ok_elim tf sf pf base im axis rim kwargs
    im2 conc r htrim hsolve hok
  subst hr
  constructor
  · simp [buildResult, Deff, molarNA, areaA, lenL]
  · simp only [buildResult]
    exact one_div_mul_eq_div _ _

/-- Witness for C6: concrete run on the open `3 x 1` slab. -/
theorem C6_formation_factor_witness :
    (buildResult (epsOf (slab2 3 1)) (slab2 3 1) 0 (linConc 3 1)
      false).formation_factor = 1 /
      (rate_in (slab2 3 1) 0 (linConc 3 1) /
        (((slab2 3 1).size : ℚ) / (pyGet (slab2 3 1).shape 0 : ℚ) /
          (pyGet (slab2 3 1).shape 0 : ℚ) * (C_in - C_out))) ∧
    (buildResult (epsOf (slab2 3 1)) (slab2 3 1) 0 (linConc 3 1)
      false).formation_factor *
    (buildResult (epsOf (slab2 3 1)) (slab2 3 1) 0 (linConc 3 1)
      false).effective_porosity =
    (buildResult (epsOf (slab2 3 1)) (slab2 3 1) 0 (linConc 3 1)
      false).tortuosity :=
  C6_formation_factor idTrim (constSolve (linConc 3 1)) true [] (slab2 3 1)
    0 false [] (slab2 3 1) (linConc 3 1) _ rfl rfl run_slab31

/-- Claim C8: exceptions of the delegated collaborators (the percolation
trim and the network construction plus solve) propagate out of `tortuosity`
unmodified. -/
theorem C8_exception_propagation
    (tf : Image → Int → Except PyErr Image)
    (sf : Image → List Bool → List Bool → List (String × String) →
      Except PyErr (List ℚ))
    (pf : Bool) (base : List (String × String)) (im : Image) (axis : Int)
    (rim : Bool) (kwargs : List (String × String))
    (hax : ¬ axis > (im.ndim : Int) - 1) :
    (∀ e : PyErr, tf im axis = .error e →
      tortuosity tf sf pf base im axis rim kwargs = .error e) ∧
    (∀ (e : PyErr) (im2 : Image), tf im axis = .ok im2 →
      sf im2 (inletMask im2 axis) (outletMask im2 axis)
        (solverSettings base kwargs pf) = .error e →
      tortuosity tf sf pf base im axis rim kwargs = .error e) := by
  unfold tortuosity tortuosityAfterAxis
  rw [if_neg hax]
  constructor
  · intro e he
    rw [he]
  · intro e im2 ht hs
    rw [ht]
    dsimp only
    rw [hs]

/-- Witness for C8: a raising trim propagates its exact exception. -/
theorem C8_exception_propagation_witness :
    tortuosity failTrim (constSolve (linConc 3 1)) true [] (slab2 3 1) 0
      false [] = .error ⟨"trim failed"⟩ :=
  (C8_exception_propagation failTrim (constSolve (linConc 3 1)) true []
    (slab2 3 1) 0 false [] (by decide)).1 ⟨"trim failed"⟩ rfl

/-- Folding `set` operations preserves the length. -/
theorem foldl_set_length (ps : List (Nat × ℚ)) (acc : List ℚ) :
    (ps.foldl (fun a iv => a.set iv.1 iv.2) acc).length = acc.length := by
  induction ps generalizing acc with
  | nil => rfl
  | cons p ps ih => rw [List.foldl_cons, ih, List.length_set]

/-- The reconstructed concentration array has exactly `im.size` entries. -/
theorem scatterAssign_length (n : Nat) (idxs : List Nat) (vals : List ℚ) :
    (scatterAssign n idxs vals).length = n := by
  unfold scatterAssign
  rw [foldl_set_length, List.length_replicate]

/-- `set` at another position does not change a `getD`. -/
theorem getD_set_ne (l : List ℚ) (j : Nat) (v : ℚ) (i : Nat) (d : ℚ)
    (h : i ≠ j) : (l.set j v).getD i d = l.getD i d := by
  rcases Nat.lt_or_ge i l.length with hi | hi
  · rw [List.getD_eq_getElem _ _ (by rw [List.length_set]; exact hi),
      List.getD_eq_getElem _ _ hi]
    exact List.getElem_set_ne (Ne.symm h) _
  · rw [List.getD_eq_default _ _ (by rw [List.length_set]; exact hi),
      List.getD_eq_default _ _ hi]

/-- `set` at a valid position makes its `getD` return the new value. -/
theorem getD_set_self (l : List ℚ) (j : Nat) (v : ℚ) (d : ℚ)
    (h : j < l.length) : (l.set j v).getD j d = v := by
  rw [List.getD_eq_getElem _ _ (by rw [List.length_set]; exact h)]
  exact List.getElem_set_self _

/-- Positions outside the scattered indices are untouched by the fold. -/
theorem foldl_set_getD_not_mem (idxs : List Nat) (vals : List ℚ)
    (acc : List ℚ) (i : Nat) (h : i ∉ idxs) :
    ((idxs.zip vals).foldl (fun a iv => a.set iv.1 iv.2) acc).getD i 0
      = acc.getD i 0 := by
  induction idxs generalizing vals acc with
  | nil => rfl
  | cons a as ih =>
    cases vals with
    | nil => rfl
    | cons v vs =>
      rw [List.zip_cons_cons, List.foldl_cons,
        ih vs _ (fun hm => h (List.mem_cons_of_mem a hm))]
      exact getD_set_ne acc a v i 0
        (fun he => h (he ▸ List.mem_cons_self a as))

/-- With distinct indices, the fold writes the `k`-th value at the `k`-th
index. -/
theorem foldl_set_getD_at (idxs : List Nat) (vals : List ℚ) (acc : List ℚ)
    (k : Nat) (hnd : idxs.Nodup) (hk : k < idxs.length)
    (hkv : k < vals.length) (hlt : idxs.getD k 0 < acc.length) :
    ((idxs.zip vals).foldl (fun a iv => a.set iv.1 iv.2) acc).getD
      (idxs.getD k 0) 0 = vals.getD k 0 := by
  induction idxs generalizing vals acc k with
  | nil => simp at hk
  | cons a as ih =>
    cases vals with
    | nil => simp at hkv
    | cons v vs =>
      rw [List.zip_cons_cons, List.foldl_cons]
      cases k with
      | zero =>
        have ha : a ∉ as := (List.nodup_cons.mp hnd).1
        rw [List.getD_cons_zero] at hlt ⊢
        rw [foldl_set_getD_not_mem as vs _ a ha, List.getD_cons_zero]
        exact getD_set_self acc a v 0 hlt
      | succ k =>
        rw [List.getD_cons_succ] at hlt ⊢
        rw [List.getD_cons_succ]
        exact ih vs (acc.set a v) k (List.nodup_cons.mp hnd).2
          (Nat.lt_of_succ_lt_succ hk) (Nat.lt_of_succ_lt_succ hkv)
          (by rw [List.length_set]; exact hlt)

/-- The template indices are pairwise distinct. -/
theorem templateIndices_nodup (im : Image) : (templateIndices im).Nodup :=
  List.Nodup.filter _ (List.nodup_range _)

/-- A flat index is a template index exactly when its voxel is `True`. -/
theorem mem_templateIndices (im : Image) (i : Nat) :
    i ∈ templateIndices im ↔
      i < im.data.length ∧ im.data.getD i false = true := by
  simp [templateIndices, List.mem_filter, List.mem_range]

/-- A `getD` into the all-zero array yields zero. -/
theorem getD_replicate_zero (n i : Nat) :
    (List.replicate n (0 : ℚ)).getD i 0 = 0 := by
  rcases Nat.lt_or_ge i n with hi | hi
  · rw [List.getD_eq_getElem _ _ (by rw [List.length_replicate]; exact hi)]
    exact List.getElem_replicate _ _
  · exact List.getD_eq_default _ _ (by rw [List.length_replicate]; exact hi)

/-- Claim C5: with `return_im` set, the returned image has the shape of the
input (the trim preserving shape), holds the solved concentration at the
pores' voxels and exactly zero at every voxel excluded from the percolating
network; with `return_im` unset it is `None`. -/
theorem C5_return_image
    (tf : Image → Int → Except PyErr Image)
    (sf : Image → List Bool → List Bool → List (String × String) →
      Except PyErr (List ℚ))
    (pf : Bool) (base : List (String × String)) (im : Image) (axis : Int)
    (rim : Bool) (kwargs : List (String × String)) (im2 : Image)
    (conc : List ℚ) (r : TortuosityResult)
    (htrim : tf im axis = .ok im2)
    (hsolve : sf im2 (inletMask im2 axis) (outletMask im2 axis)
      (solverSettings base kwargs pf) = .ok conc)
    (hshape : im2.shape = im.shape)
    (hdata : im2.data.length = im2.size)
    (hok : tortuosity tf sf pf base im axis rim kwargs = .ok r) :
    (rim = true →
      r.image = some (im.shape,
        scatterAssign im2.size (templateIndices im2) conc) ∧
      (scatterAssign im2.size (templateIndices im2) conc).length
        = im.size ∧
      (∀ i : Nat, i < im.size → im2.data.getD i false = false →
        (scatterAssign im2.size (templateIndices im2) conc).getD i 0
          = 0) ∧
      (∀ k : Nat, k < (templateIndices im2).length → k < conc.length →
        (scatterAssign im2.size (templateIndices im2) conc).getD
          ((templateIndices im2).getD k 0) 0 = conc.getD k 0)) ∧
    (rim = false → r.image = none) := by
  obtain ⟨hr, -⟩ := tortuosity_ok_elim tf sf pf base im axis rim kwargs
    im2 conc r htrim hsolve hok
  subst hr
  have hsize : im2.size = im.size := by
    unfold Image.size
    rw [hshape]
  constructor
  · intro hrim
    subst hrim
    refine ⟨?_, ?_, ?_, ?_⟩
    · simp [buildResult, hshape]
    · rw [scatterAssign_length]
      exact hsize
    · intro i hi hfalse
      have hni : i ∉ templateIndices im2 := by
        rw [mem_templateIndices]
        rintro ⟨-, htrue⟩
        rw [hfalse] at htrue
        cases htrue
      unfold scatterAssign
      rw [foldl_set_getD_not_mem _ _ _ _ hni]
      exact getD_replicate_zero _ _
    · intro k hk hkc
      unfold scatterAssign
      apply foldl_set_getD_at _ _ _ _ (templateIndices_nodup im2) hk hkc
      rw [List.length_replicate]
      have hmem : (templateIndices im2).getD k 0 ∈ templateIndices im2 := by
        rw [List.getD_eq_getElem _ _ hk]
        exact List.getElem_mem _
      rw [← hdata]
      exact ((mem_templateIndices _ _).mp hmem).1
  · intro hrim
    subst hrim
    simp [buildResult]

/-- The reference successful run with `return_im` set. -/
theorem run_slab31_image :
    tortuosity idTrim (constSolve (linConc 3 1)) true [] (slab2 3 1) 0
      true [] =
    .ok (buildResult (epsOf (slab2 3 1)) (slab2 3 1) 0 (linConc 3 1)
      true) :=
  tortuosity_ok_intro idTrim (constSolve (linConc 3 1)) true [] (slab2 3 1)
    0 true [] (slab2 3 1) (linConc 3 1) (by decide) rfl rfl balance_slab31

/-- Witness for C5: the open `3 x 1` slab run with `return_im` set. -/
theorem C5_return_image_witness :
    (true = true →
      (buildResult (epsOf (slab2 3 1)) (slab2 3 1) 0 (linConc 3 1)
        true).image = some ((slab2 3 1).shape,
        scatterAssign (slab2 3 1).size (templateIndices (slab2 3 1))
          (linConc 3 1)) ∧
      (scatterAssign (slab2 3 1).size (templateIndices (slab2 3 1))
        (linConc 3 1)).length = (slab2 3 1).size ∧
      (∀ i : Nat, i < (slab2 3 1).size →
        (slab2 3 1).data.getD i false = false →
        (scatterAssign (slab2 3 1).size (templateIndices (slab2 3 1))
          (linConc 3 1)).getD i 0 = 0) ∧
      (∀ k : Nat, k < (templateIndices (slab2 3 1)).length →
        k < (linConc 3 1).length →
        (scatterAssign (slab2 3 1).size (templateIndices (slab2 3 1))
          (linConc 3 1)).getD
          ((templateIndices (slab2 3 1)).getD k 0) 0 =
          (linConc 3 1).getD k 0)) ∧
    (true = false →
      (buildResult (epsOf (slab2 3 1)) (slab2 3 1) 0 (linConc 3 1)
        true).image = none) :=
  C5_return_image idTrim (constSolve (linConc 3 1)) true [] (slab2 3 1) 0
    true [] (slab2 3 1) (linConc 3 1) _ rfl rfl rfl rfl run_slab31_image

/-- Lookup at a matching head. -/
theorem lookupKey_cons_pos (a : String × String) (tl : List (String × String))
    (k : String) (h : a.1 = k) : lookupKey (a :: tl) k = some a.2 := by
  unfold lookupKey
  rw [List.find?_cons_of_pos _ (by simp [h])]
  rfl

/-- Lookup skips a non-matching head. -/
theorem lookupKey_cons_neg (a : String × String) (tl : List (String × String))
    (k : String) (h : ¬ a.1 = k) : lookupKey (a :: tl) k = lookupKey tl k := by
  unfold lookupKey
  rw [List.find?_cons_of_neg _ (by simp [h])]

/-- Overwriting a present key makes its lookup return the new value. -/
theorem lookupKey_map_self (l : List (String × String)) (k v : String)
    (h : hasKey l k = true) :
    lookupKey (l.map (fun kv => if kv.1 == k then (k, v) else kv)) k
      = some v := by
  induction l with
  | nil => simp [hasKey] at h
  | cons a tl ih =>
    rw [List.map_cons]
    by_cases ha : a.1 = k
    · have he : (if (a.1 == k) = true then (k, v) else a) = (k, v) := by
        simp [ha]
      rw [he, lookupKey_cons_pos _ _ _ rfl]
    · have he : (if (a.1 == k) = true then (k, v) else a) = a := by
        simp [ha]
      rw [he, lookupKey_cons_neg _ _ _ ha]
      apply ih
      simp only [hasKey, List.any_cons, Bool.or_eq_true] at h
      rcases h with h1 | h2
      · exact absurd (by simpa using h1) ha
      · exact h2

/-- Appending a fresh key makes its lookup return the appended value. -/
theorem lookupKey_append_self (l : List (String × String)) (k v : String)
    (h : hasKey l k = false) :
    lookupKey (l ++ [(k, v)]) k = some v := by
  induction l with
  | nil =>
    rw [List.nil_append, lookupKey_cons_pos _ _ _ rfl]
  | cons a tl ih =>
    simp only [hasKey, List.any_cons, Bool.or_eq_false_iff] at h
    rw [List.cons_append, lookupKey_cons_neg _ _ _ (by simpa using h.1)]
    exact ih (by simpa [hasKey] using h.2)

/-- `setKey` makes the set key look up to the new value. -/
theorem lookupKey_setKey_self (l : List (String × String)) (k v : String) :
    lookupKey (setKey l k v) k = some v := by
  unfold setKey
  by_cases h : hasKey l k = true
  · rw [if_pos h]
    exact lookupKey_map_self l k v h
  · rw [if_neg h]
    exact lookupKey_append_self l k v (by simpa using h)

/-- `setKey` leaves the lookup of every other key unchanged. -/
theorem lookupKey_setKey_ne (l : List (String × String)) (k v k2 : String)
    (hne : k2 ≠ k) :
    lookupKey (setKey l k v) k2 = lookupKey l k2 := by
  unfold setKey
  by_cases h : hasKey l k = true
  · rw [if_pos h]
    clear h
    induction l with
    | nil => rfl
    | cons a tl ih =>
      rw [List.map_cons]
      by_cases ha : a.1 = k
      · have he : (if (a.1 == k) = true then (k, v) else a) = (k, v) := by
          simp [ha]
        rw [he, lookupKey_cons_neg (k, v) _ _ (Ne.symm hne),
          lookupKey_cons_neg a _ _ (by rw [ha]; exact Ne.symm hne)]
        exact ih
      · have he : (if (a.1 == k) = true then (k, v) else a) = a := by
          simp [ha]
        rw [he]
        by_cases h2 : a.1 = k2
        · rw [lookupKey_cons_pos _ _ _ h2, lookupKey_cons_pos _ _ _ h2]
        · rw [lookupKey_cons_neg _ _ _ h2, lookupKey_cons_neg _ _ _ h2]
          exact ih
  · rw [if_neg h]
    clear h
    induction l with
    | nil =>
      rw [List.nil_append, lookupKey_cons_neg _ _ _ (Ne.symm hne)]
    | cons a tl ih =>
      rw [List.cons_append]
      by_cases h2 : a.1 = k2
      · rw [lookupKey_cons_pos _ _ _ h2, lookupKey_cons_pos _ _ _ h2]
      · rw [lookupKey_cons_neg _ _ _ h2, lookupKey_cons_neg _ _ _ h2]
        exact ih

/-- Claim C9: the keyword arguments reach the solver settings only when
`'solver_family'` is among them; otherwise they are all ignored and the
defaults apply, with family `'pyamg'` exactly when the pyamg package is not
found and `'scipy'` with type `'cg'` otherwise. -/
theorem C9_solver_settings (base kwargs : List (String × String))
    (pf : Bool) :
    (hasKey kwargs "solver_family" = true →
      solverSettings base kwargs pf = updateKeys base kwargs) ∧
    (hasKey kwargs "solver_family" = false →
      solverSettings base kwargs pf = solverSettings base [] pf ∧
      lookupKey (solverSettings base kwargs pf) "solver_family" =
        some (if pf then "scipy" else "pyamg") ∧
      lookupKey (solverSettings base kwargs pf) "solver_type" =
        some "cg") := by
  constructor
  · intro h
    unfold solverSettings
    rw [if_pos h]
  · intro h
    have hne : ¬ hasKey kwargs "solver_family" = true := by simp [h]
    have hne0 : ¬ hasKey ([] : List (String × String)) "solver_family"
        = true := by simp [hasKey]
    have hsf : ("solver_family" : String) ≠ "solver_type" := by decide
    have hst : ("solver_type" : String) ≠ "solver_family" := by decide
    refine ⟨?_, ?_, ?_⟩
    · unfold solverSettings
      rw [if_neg hne, if_neg hne0]
    · unfold solverSettings
      rw [if_neg hne]
      cases pf with
      | true =>
        rw [if_pos rfl, lookupKey_setKey_ne _ _ _ _ hsf,
          lookupKey_setKey_self]
        rfl
      | false =>
        rw [if_neg (by simp), lookupKey_setKey_self]
        rfl
    · unfold solverSettings
      rw [if_neg hne]
      cases pf with
      | true =>
        rw [if_pos rfl, lookupKey_setKey_self]
      | false =>
        rw [if_neg (by simp), lookupKey_setKey_ne _ _ _ _ hst,
          lookupKey_setKey_self]

/-- Witness for C9: a stray keyword argument without `'solver_family'` is
ignored and the scipy/cg defaults apply. -/
theorem C9_solver_settings_witness :
    solverSettings [] [("x", "1")] true = solverSettings [] [] true ∧
    lookupKey (solverSettings [] [("x", "1")] true) "solver_family" =
      some (if true then "scipy" else "pyamg") ∧
    lookupKey (solverSettings [] [("x", "1")] true) "solver_type" =
      some "cg" :=
  (C9_solver_settings [] [("x", "1")] true).2 (by decide)

/-- Negative indexing agrees with indexing at `length + i`. -/
theorem pyGet_neg_eq (l : List Nat) (i : Int) (hneg : i < 0)
    (hmag : i.natAbs ≤ l.length) :
    pyGet l i = pyGet l ((l.length : Int) + i) := by
  unfold pyGet
  rw [if_pos hneg, if_neg (by omega)]
  congr 1
  omega

/-- Claim C10: a negative axis of magnitude at most `im.ndim` passes the
axis validation, the pipeline proceeds, and the axis indexes `im.shape` and
the coordinate columns by Python's negative indexing, i.e. like the
nonnegative axis `im.ndim + axis`. -/
theorem C10_negative_axis
    (tf : Image → Int → Except PyErr Image)
    (sf : Image → List Bool → List Bool → List (String × String) →
      Except PyErr (List ℚ))
    (pf : Bool) (base : List (String × String)) (im : Image)
    (rim : Bool) (kwargs : List (String × String)) (axis : Int)
    (hneg : axis < 0) (hmag : axis.natAbs ≤ im.ndim) :
    ¬ axis > (im.ndim : Int) - 1 ∧
    tortuosity tf sf pf base im axis rim kwargs =
      tortuosityAfterAxis tf sf pf base im axis rim kwargs ∧
    pyGet im.shape axis = pyGet im.shape ((im.ndim : Int) + axis) ∧
    (∀ cs : List Nat, cs.length = im.ndim →
      pyGet cs axis = pyGet cs ((im.ndim : Int) + axis)) := by
  have hax : ¬ axis > (im.ndim : Int) - 1 := by omega
  refine ⟨hax, ?_, ?_, ?_⟩
  · unfold tortuosity
    rw [if_neg hax]
  · exact pyGet_neg_eq im.shape axis hneg hmag
  · intro cs hlen
    have := pyGet_neg_eq cs axis hneg (by rw [hlen]; exact hmag)
    rwa [hlen] at this

/-- Witness for C10: `axis = -1` on a `2`-dimensional image. -/
theorem C10_negative_axis_witness :
    ¬ (-1 : Int) > ((slab2 3 1).ndim : Int) - 1 ∧
    tortuosity idTrim (constSolve (linConc 3 1)) true [] (slab2 3 1) (-1)
      false [] =
      tortuosityAfterAxis idTrim (constSolve (linConc 3 1)) true []
        (slab2 3 1) (-1) false [] ∧
    pyGet (slab2 3 1).shape (-1) =
      pyGet (slab2 3 1).shape (((slab2 3 1).ndim : Int) + -1) ∧
    (∀ cs : List Nat, cs.length = (slab2 3 1).ndim →
      pyGet cs (-1) = pyGet cs (((slab2 3 1).ndim : Int) + -1)) :=
  C10_negative_axis idTrim (constSolve (linConc 3 1)) true [] (slab2 3 1)
    false [] (-1) (by decide) (by decide)

/-- Bridge from a mapped `List.range` sum to a `Finset.range` sum. -/
theorem list_sum_range (n : Nat) (f : Nat → ℚ) :
    ((List.range n).map f).sum = ∑ i ∈ Finset.range n, f i := by
  induction n with
  | zero => rfl
  | succ n ih =>
    rw [List.range_succ, List.map_append, List.sum_append,
      Finset.sum_range_succ, ih]
    simp

/-- Splitting a sum over `range (m + n)`. -/
theorem sum_range_split (m n : Nat) (f : Nat → ℚ) :
    ∑ p ∈ Finset.range (m + n), f p =
      (∑ p ∈ Finset.range m, f p) + ∑ j ∈ Finset.range n, f (m + j) := by
  induction n with
  | zero => simp
  | succ n ih =>
    rw [Nat.add_succ, Finset.sum_range_succ, ih, Finset.sum_range_succ,
      add_assoc]

/-- A sum over `range (L * W)` as a double sum over rows and columns. -/
theorem sum_range_mul (L W : Nat) (f : Nat → ℚ) :
    ∑ p ∈ Finset.range (L * W), f p =
      ∑ i ∈ Finset.range L, ∑ j ∈ Finset.range W, f (i * W + j) := by
  induction L with
  | zero => simp
  | succ L ih =>
    rw [Nat.succ_mul, sum_range_split, ih, Finset.sum_range_succ]

/-- Row recovery from the flat index. -/
theorem idx_div (i j W : Nat) (hj : j < W) : (i * W + j) / W = i := by
  rw [Nat.add_comm, Nat.mul_comm i W, Nat.add_mul_div_left _ _
    (Nat.lt_of_le_of_lt (Nat.zero_le j) hj), Nat.div_eq_of_lt hj,
    Nat.zero_add]

/-- Column recovery from the flat index. -/
theorem idx_mod (i j W : Nat) (hj : j < W) : (i * W + j) % W = j := by
  rw [Nat.add_comm, Nat.mul_comm i W, Nat.add_mul_mod_self_left,
    Nat.mod_eq_of_lt hj]

/-- The open slab's flattened data has `L * W` entries. -/
theorem slab2_data_length (L W : Nat) : (slab2 L W).data.length = L * W := by
  simp [slab2]

/-- `im.size` of the open slab. -/
theorem slab2_size (L W : Nat) : (slab2 L W).size = L * W := by
  simp [slab2, Image.size]

/-- `im.sum()` of the open slab: every voxel is `True`. -/
theorem slab2_sum (L W : Nat) : (slab2 L W).sum = L * W := by
  simp [slab2, Image.sum]

/-- The open slab has porosity one. -/
theorem epsOf_slab2 (L W : Nat) (h : 0 < L * W) : epsOf (slab2 L W) = 1 := by
  unfold epsOf
  rw [slab2_sum, slab2_size, div_self]
  exact_mod_cast h.ne'

/-- On the open slab every flat index is a template index. -/
theorem templateIndices_slab (L W : Nat) :
    templateIndices (slab2 L W) = List.range (L * W) := by
  unfold templateIndices
  rw [slab2_data_length]
  apply List.filter_eq_self.mpr
  intro a ha
  rw [List.mem_range] at ha
  show (List.replicate (L * W) true).getD a false = true
  rw [List.getD_eq_getElem _ _ (by rw [List.length_replicate]; exact ha)]
  exact List.getElem_replicate _ _

/-- Unravelling a flat index of a two-dimensional shape. -/
theorem unravel_pair (L W p : Nat) : unravel [L, W] p = [p / W, p % W] := by
  simp [unravel, Nat.div_one]

/-- The pore coordinates of the open slab, in C order. -/
theorem poreCoords_slab (L W : Nat) :
    poreCoords (slab2 L W) =
      (List.range (L * W)).map (fun p => [p / W, p % W]) := by
  unfold poreCoords
  rw [templateIndices_slab]
  have hf : unravel (slab2 L W).shape = (fun p => [p / W, p % W]) :=
    funext (fun p => unravel_pair L W p)
  rw [hf]

/-- The slab network has one pore per voxel. -/
theorem poreCoords_slab_length (L W : Nat) :
    (poreCoords (slab2 L W)).length = L * W := by
  rw [poreCoords_slab]
  simp

/-- `getD` into a mapped range evaluates the function. -/
theorem getD_map_range {a : Type} (n : Nat) (f : Nat → a) (p : Nat) (d : a)
    (hp : p < n) : ((List.range n).map f).getD p d = f p := by
  rw [List.getD_eq_getElem _ _ (by simpa using hp)]
  simp

/-- The linear profile has one entry per pore. -/
theorem linConc_length (L W : Nat) : (linConc L W).length = L * W := by
  simp [linConc]

/-- Entry `p` of the linear profile. -/
theorem linConc_getD (L W p : Nat) (hp : p < L * W) :
    (linConc L W).getD p 0 = cRow L (p / W) := by
  unfold linConc
  exact getD_map_range _ _ _ _ hp

/-- The coordinates of pore `p` on the slab. -/
theorem poreCoords_slab_getD (L W p : Nat) (hp : p < L * W) :
    (poreCoords (slab2 L W)).getD p [] = [p / W, p % W] := by
  rw [poreCoords_slab]
  exact getD_map_range _ _ _ _ hp

/-- The first-layer test of the pore-center coordinate. -/
theorem inlet_cond_iff (a : Nat) : ((a : ℚ) + 1/2 ≤ 1) ↔ a = 0 := by
  constructor
  · intro h
    by_contra hne
    have h1 : 1 ≤ a := Nat.one_le_iff_ne_zero.mpr hne
    have h2 : (1 : ℚ) ≤ (a : ℚ) := by exact_mod_cast h1
    linarith
  · rintro rfl
    norm_num

/-- The last-layer test of the pore-center coordinate. -/
theorem outlet_cond_iff (Lv a : Nat) :
    (((Lv : Int) : ℚ) - 1 ≤ (a : ℚ) + 1/2) ↔ Lv ≤ a + 1 := by
  constructor
  · intro h
    by_contra hc
    push_neg at hc
    have h2 : a + 2 ≤ Lv := hc
    have h3 : (a : ℚ) + 2 ≤ ((Lv : Int) : ℚ) := by exact_mod_cast h2
    linarith
  · intro h
    have h2 : ((Lv : Int) : ℚ) ≤ (a : ℚ) + 1 := by exact_mod_cast h
    linarith

/-- The inlet mask of the slab selects the first row. -/
theorem inletMask_slab (L W p : Nat) (hp : p < L * W) :
    (inletMask (slab2 L W) 0).getD p false = decide (p / W = 0) := by
  unfold inletMask
  rw [poreCoords_slab, List.map_map]
  rw [getD_map_range _ _ _ _ hp]
  show decide (poreCoordQ [p / W, p % W] 0 ≤ 1) = decide (p / W = 0)
  rw [decide_eq_decide]
  show ((p / W : Nat) : ℚ) + 1/2 ≤ 1 ↔ p / W = 0
  exact inlet_cond_iff _

/-- The outlet mask of the slab selects the last row. -/
theorem outletMask_slab (L W p : Nat) (hp : p < L * W) :
    (outletMask (slab2 L W) 0).getD p false = decide (L ≤ p / W + 1) := by
  unfold outletMask
  rw [poreCoords_slab, List.map_map]
  rw [getD_map_range _ _ _ _ hp]
  show decide (((pyGet (slab2 L W).shape 0 : Int) : ℚ) - 1 ≤
    poreCoordQ [p / W, p % W] 0) = decide (L ≤ p / W + 1)
  rw [decide_eq_decide]
  show ((L : Int) : ℚ) - 1 ≤ ((p / W : Nat) : ℚ) + 1/2 ↔ L ≤ p / W + 1
  exact outlet_cond_iff _ _


/-- Face adjacency of two-dimensional coordinates via the Manhattan
distance. -/
theorem adjacent_pair_iff (i j x y : Nat) :
    adjacent [i, j] [x, y] = true ↔ natDist i x + natDist j y = 1 := by
  show (coordDist [i, j] [x, y] == 1) = true ↔ _
  rw [beq_iff_eq]
  show natDist i x + (natDist j y + 0) = 1 ↔ _
  rw [Nat.add_zero]

/-- `natDist` vanishing forces equality. -/
theorem natDist_eq_zero_iff (a b : Nat) : natDist a b = 0 ↔ a = b := by
  unfold natDist
  omega

/-- The flux sum of a row-constant concentration through the throats of one
pore collapses to a sum over the rows. -/
theorem inner_flux (L W i j : Nat) (hj : j < W) (c : Nat → ℚ) :
    (∑ q ∈ Finset.range (L * W),
      if adjacent [i, j] [q / W, q % W] then c i - c (q / W) else 0) =
    ∑ x ∈ Finset.range L, (if natDist i x = 1 then c i - c x else 0) := by
  rw [sum_range_mul]
  apply Finset.sum_congr rfl
  intro x _
  have step : ∀ j2 ∈ Finset.range W,
      (if adjacent [i, j] [(x * W + j2) / W, (x * W + j2) % W] then
        c i - c ((x * W + j2) / W) else 0) =
      (if natDist i x + natDist j j2 = 1 then c i - c x else 0) := by
    intro j2 hj2
    rw [Finset.mem_range] at hj2
    rw [idx_div x j2 W hj2, idx_mod x j2 W hj2]
    by_cases h : natDist i x + natDist j j2 = 1
    · rw [if_pos ((adjacent_pair_iff i j x j2).mpr h), if_pos h]
    · rw [if_neg (fun hc => h ((adjacent_pair_iff i j x j2).mp hc)),
        if_neg h]
  rw [Finset.sum_congr rfl step]
  by_cases h0 : natDist i x = 0
  · have hix : i = x := (natDist_eq_zero_iff i x).mp h0
    subst hix
    simp
  · by_cases h1 : natDist i x = 1
    · have step2 : ∀ j2 ∈ Finset.range W,
          (if natDist i x + natDist j j2 = 1 then c i - c x else 0) =
          (if j2 = j then c i - c x else 0) := by
        intro j2 _
        by_cases hjj : j2 = j
        · subst hjj
          have hjz : natDist j2 j2 = 0 := (natDist_eq_zero_iff _ _).mpr rfl
          rw [if_pos (by omega), if_pos rfl]
        · have hd2 : natDist j j2 ≠ 0 :=
            fun hz => hjj ((natDist_eq_zero_iff j j2).mp hz).symm
          rw [if_neg (by omega), if_neg hjj]
      rw [Finset.sum_congr rfl step2,
        Finset.sum_ite_eq' (Finset.range W) j (fun _ => c i - c x),
        if_pos (Finset.mem_range.mpr hj), if_pos h1]
    · have step3 : ∀ j2 ∈ Finset.range W,
          (if natDist i x + natDist j j2 = 1 then c i - c x else 0)
            = 0 := by
        intro j2 _
        rw [if_neg (by omega)]
      rw [Finset.sum_congr rfl step3, Finset.sum_const_zero, if_neg h1]

/-- A row sum whose condition selects a single row. -/
theorem outer_sum_single (L i t : Nat) (ht : t < L) (c : Nat → ℚ)
    (hch : ∀ x, x < L → (natDist i x = 1 ↔ x = t)) :
    (∑ x ∈ Finset.range L, if natDist i x = 1 then c i - c x else 0) =
      c i - c t := by
  have step : ∀ x ∈ Finset.range L,
      (if natDist i x = 1 then c i - c x else 0) =
      (if x = t then c i - c x else 0) := by
    intro x hx
    rw [Finset.mem_range] at hx
    by_cases h : natDist i x = 1
    · rw [if_pos h, if_pos ((hch x hx).mp h)]
    · rw [if_neg h, if_neg (fun he => h ((hch x hx).mpr he))]
  rw [Finset.sum_congr rfl step,
    Finset.sum_ite_eq' (Finset.range L) t (fun x => c i - c x),
    if_pos (Finset.mem_range.mpr ht)]

/-- A row sum whose condition selects exactly two rows. -/
theorem outer_sum_pair (L i t1 t2 : Nat) (ht1 : t1 < L) (ht2 : t2 < L)
    (hne : t1 ≠ t2) (c : Nat → ℚ)
    (hch : ∀ x, x < L → (natDist i x = 1 ↔ x = t1 ∨ x = t2)) :
    (∑ x ∈ Finset.range L, if natDist i x = 1 then c i - c x else 0) =
      (c i - c t1) + (c i - c t2) := by
  have step : ∀ x ∈ Finset.range L,
      (if natDist i x = 1 then c i - c x else 0) =
      (if x = t1 then c i - c x else 0) +
      (if x = t2 then c i - c x else 0) := by
    intro x hx
    rw [Finset.mem_range] at hx
    by_cases h1 : x = t1
    · rw [if_pos ((hch x hx).mpr (Or.inl h1)), if_pos h1,
        if_neg (fun h2 => hne (h1 ▸ h2)), add_zero]
    · by_cases h2 : x = t2
      · rw [if_pos ((hch x hx).mpr (Or.inr h2)), if_neg h1, if_pos h2,
          zero_add]
      · rw [if_neg (fun h => (((hch x hx).mp h).elim h1 h2)), if_neg h1,
          if_neg h2, add_zero]
  rw [Finset.sum_congr rfl step, Finset.sum_add_distrib,
    Finset.sum_ite_eq' (Finset.range L) t1 (fun x => c i - c x),
    Finset.sum_ite_eq' (Finset.range L) t2 (fun x => c i - c x),
    if_pos (Finset.mem_range.mpr ht1), if_pos (Finset.mem_range.mpr ht2)]

/-- The inner flux list-sum of pore `p` on the slab collapses to a row
sum. -/
theorem flux_sum_eq (L W p : Nat) (hW : 1 ≤ W) (hp : p < L * W) :
    ((List.range (L * W)).map (fun q =>
      if adjacent ((poreCoords (slab2 L W)).getD p [])
          ((poreCoords (slab2 L W)).getD q []) then
        (linConc L W).getD p 0 - (linConc L W).getD q 0
      else 0)).sum =
    ∑ x ∈ Finset.range L,
      (if natDist (p / W) x = 1 then cRow L (p / W) - cRow L x else 0) := by
  rw [list_sum_range]
  have step : ∀ q ∈ Finset.range (L * W),
      (if adjacent ((poreCoords (slab2 L W)).getD p [])
          ((poreCoords (slab2 L W)).getD q []) then
        (linConc L W).getD p 0 - (linConc L W).getD q 0 else 0) =
      (if adjacent [p / W, p % W] [q / W, q % W] then
        cRow L (p / W) - cRow L (q / W) else 0) := by
    intro q hq
    rw [Finset.mem_range] at hq
    rw [poreCoords_slab_getD L W p hp, poreCoords_slab_getD L W q hq,
      linConc_getD L W p hp, linConc_getD L W q hq]
  rw [Finset.sum_congr rfl step]
  exact inner_flux L W (p / W) (p % W) (Nat.mod_lt _ (by omega)) (cRow L)

/-- The first row of the linear profile holds the inlet concentration. -/
theorem cRow_zero (L : Nat) : cRow L 0 = 1 := by
  simp [cRow]

/-- The last row of the linear profile holds the outlet concentration. -/
theorem cRow_last (L : Nat) (hL : 2 ≤ L) : cRow L (L - 1) = 0 := by
  unfold cRow
  rw [Nat.cast_sub (by omega), Nat.cast_one]
  have hne : (L : ℚ) - 1 ≠ 0 := by
    have h2 : (2 : ℚ) ≤ (L : ℚ) := by exact_mod_cast hL
    linarith
  rw [div_self hne, sub_self]

/-- The concentration drop to the next row. -/
theorem cRow_diff_succ (L k : Nat) :
    cRow L k - cRow L (k + 1) = 1 / ((L : ℚ) - 1) := by
  unfold cRow
  push_cast
  ring

/-- The concentration rise to the previous row. -/
theorem cRow_diff_pred (L k : Nat) (hk : 1 ≤ k) :
    cRow L k - cRow L (k - 1) = -(1 / ((L : ℚ) - 1)) := by
  unfold cRow
  rw [Nat.cast_sub hk, Nat.cast_one]
  ring

/-- Inlet molar flow of the linear profile on the open slab. -/
theorem rate_in_slab (L W : Nat) (hL : 2 ≤ L) (hW : 1 ≤ W) :
    rate_in (slab2 L W) 0 (linConc L W) = (W : ℚ) / ((L : ℚ) - 1) := by
  unfold rate_in rate
  rw [poreCoords_slab_length, list_sum_range]
  have main : ∀ p ∈ Finset.range (L * W),
      (if (inletMask (slab2 L W) 0).getD p false then
        ((List.range (L * W)).map (fun q =>
          if adjacent ((poreCoords (slab2 L W)).getD p [])
              ((poreCoords (slab2 L W)).getD q []) then
            (linConc L W).getD p 0 - (linConc L W).getD q 0
          else 0)).sum
      else 0) =
      (if p / W = 0 then 1 / ((L : ℚ) - 1) else 0) := by
    intro p hp
    rw [Finset.mem_range] at hp
    rw [inletMask_slab L W p hp]
    by_cases hrow : p / W = 0
    · rw [if_pos (by simp [hrow]), if_pos hrow]
      rw [flux_sum_eq L W p hW hp, hrow]
      rw [outer_sum_single L 0 1 (by omega) (cRow L)
        (by intro x hx; unfold natDist; omega)]
      simpa using cRow_diff_succ L 0
    · rw [if_neg (by simp [hrow]), if_neg hrow]
  rw [Finset.sum_congr rfl main, sum_range_mul]
  have main2 : ∀ i ∈ Finset.range L,
      (∑ j ∈ Finset.range W, if (i * W + j) / W = 0 then
        1 / ((L : ℚ) - 1) else 0) =
      (if i = 0 then (W : ℚ) / ((L : ℚ) - 1) else 0) := by
    intro i _
    have step : ∀ j ∈ Finset.range W,
        (if (i * W + j) / W = 0 then 1 / ((L : ℚ) - 1) else 0) =
        (if i = 0 then 1 / ((L : ℚ) - 1) else 0) := by
      intro j hj
      rw [Finset.mem_range] at hj
      rw [idx_div i j W hj]
    rw [Finset.sum_congr rfl step]
    by_cases hi : i = 0
    · simp only [if_pos hi, Finset.sum_const, Finset.card_range,
        nsmul_eq_mul, mul_one_div]
    · simp [hi]
  rw [Finset.sum_congr rfl main2,
    Finset.sum_ite_eq' (Finset.range L) 0
      (fun _ => (W : ℚ) / ((L : ℚ) - 1)),
    if_pos (Finset.mem_range.mpr (by omega))]

/-- Outlet molar flow of the linear profile on the open slab. -/
theorem rate_out_slab (L W : Nat) (hL : 2 ≤ L) (hW : 1 ≤ W) :
    rate_out (slab2 L W) 0 (linConc L W) = -((W : ℚ) / ((L : ℚ) - 1)) := by
  unfold rate_out rate
  rw [poreCoords_slab_length, list_sum_range]
  have main : ∀ p ∈ Finset.range (L * W),
      (if (outletMask (slab2 L W) 0).getD p false then
        ((List.range (L * W)).map (fun q =>
          if adjacent ((poreCoords (slab2 L W)).getD p [])
              ((poreCoords (slab2 L W)).getD q []) then
            (linConc L W).getD p 0 - (linConc L W).getD q 0
          else 0)).sum
      else 0) =
      (if L ≤ p / W + 1 then -(1 / ((L : ℚ) - 1)) else 0) := by
    intro p hp
    rw [Finset.mem_range] at hp
    rw [outletMask_slab L W p hp]
    have hlt : p / W < L := by
      rcases Nat.lt_or_ge (p / W) L with h | h
      · exact h
      · exact absurd (Nat.le_trans (Nat.mul_le_mul_right W h)
          (Nat.div_mul_le_self p W)) (by omega)
    by_cases hrow : L ≤ p / W + 1
    · have hlast : p / W = L - 1 := by omega
      rw [if_pos (by simp [hrow]), if_pos hrow]
      rw [flux_sum_eq L W p hW hp, hlast]
      rw [outer_sum_single L (L - 1) (L - 2) (by omega) (cRow L)
        (by intro x hx; unfold natDist; omega)]
      have hd := cRow_diff_pred L (L - 1) (by omega)
      have he : L - 1 - 1 = L - 2 := by omega
      rw [he] at hd
      exact hd
    · rw [if_neg (by simp [hrow]), if_neg hrow]
  rw [Finset.sum_congr rfl main, sum_range_mul]
  have main2 : ∀ i ∈ Finset.range L,
      (∑ j ∈ Finset.range W, if L ≤ (i * W + j) / W + 1 then
        -(1 / ((L : ℚ) - 1)) else 0) =
      (if i = L - 1 then -((W : ℚ) / ((L : ℚ) - 1)) else 0) := by
    intro i hi
    rw [Finset.mem_range] at hi
    have step : ∀ j ∈ Finset.range W,
        (if L ≤ (i * W + j) / W + 1 then -(1 / ((L : ℚ) - 1)) else 0) =
        (if i = L - 1 then -(1 / ((L : ℚ) - 1)) else 0) := by
      intro j hj
      rw [Finset.mem_range] at hj
      rw [idx_div i j W hj]
      by_cases h : i = L - 1
      · rw [if_pos (by omega), if_pos h]
      · rw [if_neg (by omega), if_neg h]
    rw [Finset.sum_congr rfl step]
    by_cases h : i = L - 1
    · simp only [if_pos h, Finset.sum_const, Finset.card_range,
        nsmul_eq_mul, mul_neg, mul_one_div]
    · simp [h]
  rw [Finset.sum_congr rfl main2,
    Finset.sum_ite_eq' (Finset.range L) (L - 1)
      (fun _ => -((W : ℚ) / ((L : ℚ) - 1))),
    if_pos (Finset.mem_range.mpr (by omega))]


/-- The row of a flat slab index is a valid row. -/
theorem div_row_lt (L W p : Nat) (_hW : 1 ≤ W) (hp : p < L * W) :
    p / W < L := by
  rcases Nat.lt_or_ge (p / W) L with h | h
  · exact h
  · exact absurd (Nat.le_trans (Nat.mul_le_mul_right W h)
      (Nat.div_mul_le_self p W)) (by omega)

/-- The linear profile is a steady state of the diffusion problem on the
open slab. -/
theorem steady_slab (L W : Nat) (hL : 2 ≤ L) (hW : 1 ≤ W) :
    isSteadyState (slab2 L W) 0 (linConc L W) = true := by
  unfold isSteadyState
  simp only [poreCoords_slab_length, linConc_length]
  rw [Bool.and_eq_true]
  constructor
  · simp
  · rw [List.all_eq_true]
    intro p hp'
    have hp : p < L * W := List.mem_range.mp hp'
    have hlt : p / W < L := div_row_lt L W p hW hp
    rw [outletMask_slab L W p hp, inletMask_slab L W p hp]
    by_cases hout : L ≤ p / W + 1
    · rw [if_pos (by simp [hout])]
      have hlast : p / W = L - 1 := by omega
      rw [linConc_getD L W p hp, hlast, cRow_last L hL]
      simp [C_out]
    · rw [if_neg (by simp [hout])]
      by_cases hin : p / W = 0
      · rw [if_pos (by simp [hin]), linConc_getD L W p hp, hin, cRow_zero]
        simp [C_in]
      · rw [if_neg (by simp [hin])]
        rw [decide_eq_true_eq]
        rw [flux_sum_eq L W p hW hp]
        obtain ⟨r, hr⟩ : ∃ r, p / W = r := ⟨_, rfl⟩
        rw [hr] at hlt hout hin ⊢
        rw [outer_sum_pair L r (r - 1) (r + 1) (by omega)
          (by omega) (by omega) (cRow L)
          (by intro x hx; unfold natDist; omega)]
        rw [cRow_diff_pred L r (by omega), cRow_diff_succ L r]
        ring

/-- The full run on the open slab with the identity trim and the exact
linear steady state: tortuosity and formation factor are `(L - 1) / L`. -/
theorem slab_run_eq (L W : Nat) (hL : 2 ≤ L) (hW : 1 ≤ W)
    (pf : Bool) (base kwargs : List (String × String)) :
    tortuosity idTrim (constSolve (linConc L W)) pf base (slab2 L W) 0
      false kwargs =
    .ok { tortuosity := ((L : ℚ) - 1) / (L : ℚ),
          effective_porosity := 1, original_porosity := 1,
          formation_factor := ((L : ℚ) - 1) / (L : ℚ),
          image := none } := by
  have hL0 : (L : ℚ) ≠ 0 := by
    have h2 : (2 : ℚ) ≤ (L : ℚ) := by exact_mod_cast hL
    linarith
  have hL1 : (L : ℚ) - 1 ≠ 0 := by
    have h2 : (2 : ℚ) ≤ (L : ℚ) := by exact_mod_cast hL
    linarith
  have hW0 : (W : ℚ) ≠ 0 := by
    have h1 : (1 : ℚ) ≤ (W : ℚ) := by exact_mod_cast hW
    linarith
  have hax : ¬ (0 : Int) > ((slab2 L W).ndim : Int) - 1 := by
    show ¬ (0 : Int) > ((2 : Nat) : Int) - 1
    norm_num
  have hbal : allclose (-(rate_out (slab2 L W) 0 (linConc L W)))
      (rate_in (slab2 L W) 0 (linConc L W)) = true := by
    rw [rate_out_slab L W hL hW, rate_in_slab L W hL hW, neg_neg]
    exact allclose_self _
  have hrun := tortuosity_ok_intro idTrim (constSolve (linConc L W)) pf
    base (slab2 L W) 0 false kwargs (slab2 L W) (linConc L W) hax rfl rfl
    hbal
  rw [hrun]
  have heps : epsOf (slab2 L W) = 1 :=
    epsOf_slab2 L W (Nat.mul_pos (by omega) (by omega))
  have hlen : lenL (slab2 L W) 0 = (L : ℚ) := rfl
  have hA : areaA (slab2 L W) 0 = (W : ℚ) := by
    unfold areaA
    rw [hlen, slab2_size]
    push_cast
    rw [mul_comm, mul_div_assoc, div_self hL0, mul_one]
  have hNA : molarNA (slab2 L W) 0 = (W : ℚ) / (L : ℚ) := by
    unfold molarNA
    rw [hA, hlen]
    simp [C_in, C_out]
  have hD : Deff (slab2 L W) 0 (linConc L W) = (L : ℚ) / ((L : ℚ) - 1) := by
    unfold Deff
    rw [rate_in_slab L W hL hW, hNA]
    field_simp
    ring
  unfold buildResult
  rw [heps, hD, one_div_div]
  rfl

/-- Counterexample to claim C7 as stated: on the fully open `3 x 1` slab the
exact steady-state solve makes `tortuosity` return `2/3`, which is not `1.0`
within the `np.allclose` tolerance. -/
theorem C7_counterexample :
    isSteadyState (slab2 3 1) 0 (linConc 3 1) = true ∧
    tortuosity idTrim (constSolve (linConc 3 1)) true [] (slab2 3 1) 0
      false [] =
    .ok { tortuosity := 2/3, effective_porosity := 1,
          original_porosity := 1, formation_factor := 2/3,
          image := none } ∧
    allclose (2/3 : ℚ) 1 = false := by
  refine ⟨steady_slab 3 1 (by norm_num) (by norm_num), ?_, ?_⟩
  · have h := slab_run_eq 3 1 (by norm_num) (by norm_num) true [] []
    norm_num at h
    exact h
  · have hno : ¬ (|(2/3 : ℚ) - 1| ≤ 1/100000000 + 1/100000 * |(1 : ℚ)|) := by
      rw [abs_one, show (2/3 : ℚ) - 1 = -(1/3) by norm_num, abs_neg,
        abs_of_nonneg (by norm_num : (0 : ℚ) ≤ 1/3)]
      norm_num
    exact decide_eq_false hno

/-- Claim C7 (amended): on a fully open two-dimensional slab with `L` layers
along the axis, the exact steady-state solve (the linear profile, which the
diffusion equations admit) makes `tortuosity` return `(L - 1) / L` rather
than `1.0`; the value approaches `1.0` only as `L` grows. -/
theorem C7_open_slab_tortuosity (L W : Nat) (hL : 2 ≤ L) (hW : 1 ≤ W)
    (pf : Bool) (base kwargs : List (String × String)) :
    isSteadyState (slab2 L W) 0 (linConc L W) = true ∧
    tortuosity idTrim (constSolve (linConc L W)) pf base (slab2 L W) 0
      false kwargs =
    .ok { tortuosity := ((L : ℚ) - 1) / (L : ℚ),
          effective_porosity := 1, original_porosity := 1,
          formation_factor := ((L : ℚ) - 1) / (L : ℚ),
          image := none } :=
  ⟨steady_slab L W hL hW, slab_run_eq L W hL hW pf base kwargs⟩

/-- Witness for the amended C7 at `L = 4`, `W = 2`. -/
theorem C7_open_slab_tortuosity_witness :
    isSteadyState (slab2 4 2) 0 (linConc 4 2) = true ∧
    tortuosity idTrim (constSolve (linConc 4 2)) true [] (slab2 4 2) 0
      false [] =
    .ok { tortuosity := ((4 : ℚ) - 1) / (4 : ℚ),
          effective_porosity := 1, original_porosity := 1,
          formation_factor := ((4 : ℚ) - 1) / (4 : ℚ),
          image := none } :=
  C7_open_slab_tortuosity 4 2 (by norm_num) (by norm_num) true [] []


end PoreSpy

